import Mathlib

/-!
Verification of `dawn_utils.h`: a single-header C utility library with
generic dynamic-array macros, a string builder, whole-file read/write
helpers, an argv-shifting helper and an always-non-negative modulo.

Modelling conventions:
* A raw C buffer is a `List (Option α)`; a slot holding `none` models an
  uninitialized byte/element (e.g. memory fresh out of `malloc`/`realloc`).
* `size_t`/length arithmetic is modelled with `Nat` (the growth arithmetic
  of this library never approaches the 64-bit wrap in any reachable state);
  C `int`/`long` values are modelled with `Int`, and the C `%` operator on
  `int` (truncation toward zero) is `Int.tmod`; where an `int` operation
  can overflow (the addition inside `dawn_mod`), the value is reduced to
  the 32-bit two's-complement range with an explicit `% 2^32` (`wrap32`),
  modelling the wrapping implementations the source runs on (the overflow
  itself is undefined behavior in ISO C).
* The file-system calls (`fopen`, `fseek`, `ftell`, `malloc`, `fread`,
  `ferror`, `fwrite`) are modelled by an environment record fixing the
  outcome of each call, so every control-flow path of the C functions is
  a reachable branch of the Lean function.
* `stderr` output is modelled as the list of messages printed, and
  `accessed` records whether `fopen` was invoked at all.
-/

/-- A raw buffer of `capacity` slots: `none` is an uninitialized slot. -/
abbrev Buf (α : Type) := List (Option α)

/-- The dynamic-array header: `length`, `capacity` and the backing buffer
(`items`), mirroring the three fields of the C struct.  The backing buffer
has exactly `capacity` slots in every state the library constructs. -/
structure DynArray (α : Type) where
  length : Nat
  capacity : Nat
  items : Buf α
deriving Repr, DecidableEq

/-- `DAWN_DA_DEFAULT_CAPACITY` -/
def DAWN_DA_DEFAULT_CAPACITY : Nat := 16

/-- `realloc` of a buffer to `newCap` slots: the old contents are kept
(up to `newCap`) and any newly acquired slots are uninitialized. -/
def reallocBuf (buf : Buf α) (newCap : Nat) : Buf α :=
  buf.take newCap ++ List.replicate (newCap - buf.length) none

/-- The growth loop of `DAWN_DA_APPEND_MANY`:
`while (length + count >= capacity) capacity *= 2`.
Here `need = length + count`.  The C loop diverges when entered with
`capacity == 0`; the library only reaches the loop after seeding a zero
capacity to 16, so the `cap = 0` branch below is unreachable in any use. -/
def growCapacity (need : Nat) (cap : Nat) : Nat :=
  if cap = 0 then 0
  else if need < cap then cap
  else growCapacity need (cap * 2)
termination_by need + 1 - cap
decreasing_by
  simp_wf
  omega

/-- `DAWN_DA_APPEND(da, elem)`: grow (double, seeding 0 to 16) when full,
then write `elem` at index `length` and increment `length`. -/
def DAWN_DA_APPEND (da : DynArray α) (elem : α) : DynArray α :=
  let da1 :=
    if da.length = da.capacity then
      let cap := da.capacity * 2
      let cap := if cap = 0 then DAWN_DA_DEFAULT_CAPACITY else cap
      { da with capacity := cap, items := reallocBuf da.items cap }
    else da
  { da1 with items := da1.items.set da1.length (some elem),
             length := da1.length + 1 }

/-- `memcpy(buf + offset, src, count)`: copy the `count = src.length` slots
of `src` into `buf` starting at `offset` (uninitialized source slots are
copied as uninitialized, as `memcpy` copies whatever bytes are there). -/
def memcpyAt (buf : Buf α) (offset : Nat) : Buf α → Buf α
  | [] => buf
  | x :: xs => memcpyAt (buf.set offset x) (offset + 1) xs

/-- `DAWN_DA_APPEND_MANY(da, elems, count)` with `count = elems.length`:
when `length + count >= capacity`, seed a zero capacity to 16 and double
until `length + count < capacity`, reallocate; then copy the elements to
index `length` and add `count` to `length`. -/
def DAWN_DA_APPEND_MANY (da : DynArray α) (elems : Buf α) : DynArray α :=
  let count := elems.length
  let da1 :=
    if da.capacity ≤ da.length + count then
      let cap0 := if da.capacity = 0 then DAWN_DA_DEFAULT_CAPACITY else da.capacity
      let cap := growCapacity (da.length + count) cap0
      { da with capacity := cap, items := reallocBuf da.items cap }
    else da
  { da1 with items := memcpyAt da1.items da1.length elems,
             length := da1.length + count }

/-- The shifting loop of `DAWN_DA_PREPEND`:
`for (i = n; i > 0; i--) items[i] = items[i-1]`. -/
def shiftLoop (buf : Buf α) : Nat → Buf α
  | 0 => buf
  | n + 1 => shiftLoop (buf.set (n + 1) (buf.getD n none)) n

/-- `DAWN_DA_PREPEND(da, elem)`: grow exactly as `DAWN_DA_APPEND` when
full, shift every element one slot right, write `elem` at index 0 and
increment `length`. -/
def DAWN_DA_PREPEND (da : DynArray α) (elem : α) : DynArray α :=
  let da1 :=
    if da.length = da.capacity then
      let cap := da.capacity * 2
      let cap := if cap = 0 then DAWN_DA_DEFAULT_CAPACITY else cap
      { da with capacity := cap, items := reallocBuf da.items cap }
    else da
  let buf := shiftLoop da1.items da1.length
  { da1 with items := buf.set 0 (some elem), length := da1.length + 1 }

/-- `DawnStringBuilder`: a dynamic array of bytes (byte values as `Nat`). -/
abbrev DawnStringBuilder := DynArray Nat

/-- `DAWN_SB_APPEND_BUF(sb, buf, bufsize)` with `bufsize = buf.length`:
a direct alias for `DAWN_DA_APPEND_MANY`. -/
def DAWN_SB_APPEND_BUF (sb : DawnStringBuilder) (buf : Buf Nat) : DawnStringBuilder :=
  DAWN_DA_APPEND_MANY sb buf

/-- A zero-initialized `DawnStringBuilder` (`{0}`). -/
def emptySB : DawnStringBuilder := ⟨0, 0, []⟩

/-- The byte values of a buffer as written to a file: an uninitialized
slot contributes an arbitrary byte, pinned to `0` in the model. -/
def bufBytes (buf : Buf Nat) : List Nat := buf.map (fun o => o.getD 0)

/-- The bytes currently held by a string builder (its first `length` slots). -/
def sbBytes (sb : DawnStringBuilder) : List Nat := bufBytes (sb.items.take sb.length)

/-- Reduction of an integer into the representable range of a 32-bit
two's-complement `int`, `[-2^31, 2^31)`.  Signed overflow is undefined
behavior in ISO C; this models the wrapping behavior of two's-complement
implementations, on which the source actually runs. -/
def wrap32 (x : Int) : Int := (x + 2147483648) % 4294967296 - 2147483648

/-- C signed `int` addition on a wrapping implementation. -/
def add32 (a b : Int) : Int := wrap32 (a + b)

/-- C `%` on `int`: truncated remainder, its `int` result wrapped like
every other `int`-valued operation (the wrap is the identity except for
the lone overflow case `INT_MIN % -1`). -/
def tmod32 (a b : Int) : Int := wrap32 (a.tmod b)

/-- `dawn_mod(x, n) = ((x % n) + n) % n`, with C's truncating `%` and
32-bit `int` arithmetic: the intermediate sum `(x % n) + n` can overflow. -/
def dawn_mod (x n : Int) : Int := tmod32 (add32 (tmod32 x n) n) n

/-- `dawn_shift_args(argc, argv)`: `assert(*argc > 0)` (modelled as `none`,
i.e. abnormal termination), read `**argv`, advance `*argv`, decrement
`*argc`.  The argv pointer is modelled as the list of cells it points to;
an empty list with a positive count is an out-of-bounds read, also `none`. -/
def dawn_shift_args (argc : Int) (argv : List String) : Option (String × Int × List String) :=
  if argc ≤ 0 then none
  else
    match argv with
    | [] => none
    | a :: rest => some (a, argc - 1, rest)

/-- Outcomes of the file-system calls made by `dawn_read_entire_file`:
whether `fopen` succeeds, whether each `fseek` succeeds, the `ftell`
result, whether `malloc` succeeds, the bytes `fread` yields (it delivers
at most the requested `f_size` of them), and the `ferror` flag. -/
structure ReadFileEnv where
  openOk : Bool
  seekEndOk : Bool
  ftellResult : Int
  seekSetOk : Bool
  mallocOk : Bool
  readData : List Nat
  ferrorFlag : Bool
deriving Repr, DecidableEq

/-- Result of `dawn_read_entire_file`: the boolean return value, the
string builder the caller's pointer refers to after the call, the
messages printed to `stderr`, and whether `fopen` was invoked. -/
structure ReadResult where
  result : Bool
  content : Option DawnStringBuilder
  stderrMsgs : List String
  accessed : Bool
deriving Repr, DecidableEq

/-- `dawn_read_entire_file(filepath, content)`: null checks, `fopen`,
`fseek` to the end, `ftell`, `fseek` back, `malloc(f_size)`, `fread`,
the short-read-with-`ferror` check, then
`DAWN_SB_APPEND_BUF(content, buf, f_size)` — the append passes the whole
`f_size`-slot temporary buffer, of which only the first `read_size` slots
were filled by `fread`. -/
def dawn_read_entire_file (env : ReadFileEnv) (filepath : Option String)
    (content : Option DawnStringBuilder) : ReadResult :=
  match filepath, content with
  | none, c => { result := false, content := c, stderrMsgs := [], accessed := false }
  | some _, none => { result := false, content := none, stderrMsgs := [], accessed := false }
  | some path, some sb =>
    if env.openOk = false then
      { result := false, content := some sb,
        stderrMsgs := ["Failed to open file: " ++ path], accessed := true }
    else if env.seekEndOk = false then
      { result := false, content := some sb,
        stderrMsgs := ["Failed to get to the end of file"], accessed := true }
    else if env.ftellResult < 0 then
      { result := false, content := some sb,
        stderrMsgs := ["Failed to get the size of the file"], accessed := true }
    else if env.seekSetOk = false then
      { result := false, content := some sb,
        stderrMsgs := ["Failed to get to the start of file"], accessed := true }
    else if env.mallocOk = false then
      { result := false, content := some sb,
        stderrMsgs := ["Failed to allocate memory for content from " ++ path], accessed := true }
    else
      let fSize := env.ftellResult.toNat
      let readBytes := env.readData.take fSize
      let readSize := readBytes.length
      if readSize < fSize ∧ env.ferrorFlag = true then
        { result := false, content := some sb,
          stderrMsgs := ["There was an error while reading " ++ path], accessed := true }
      else
        let buf : Buf Nat := readBytes.map some ++ List.replicate (fSize - readSize) none
        { result := true, content := some (DAWN_SB_APPEND_BUF sb buf),
          stderrMsgs := [], accessed := true }

/-- Outcomes of the file-system calls made by `dawn_write_entire_file`:
whether `fopen` succeeds and how many bytes `fwrite` reports written
(it reports at most the requested `content->length`). -/
structure WriteFileEnv where
  openOk : Bool
  writeCount : Nat
deriving Repr, DecidableEq

/-- Result of `dawn_write_entire_file`: the boolean return value, the
string builder the caller's (const) pointer refers to after the call,
the bytes the file holds afterwards (`none` when `fopen` failed), the
messages printed to `stderr`, and whether `fopen` was invoked. -/
structure WriteResult where
  result : Bool
  content : Option DawnStringBuilder
  fileContents : Option (List Nat)
  stderrMsgs : List String
  accessed : Bool
deriving Repr, DecidableEq

/-- `dawn_write_entire_file(filepath, content)`: null checks, `fopen`
(truncating), `fwrite(content->items, 1, content->length, f)`, failure
when fewer bytes than `content->length` were written. -/
def dawn_write_entire_file (env : WriteFileEnv) (filepath : Option String)
    (content : Option DawnStringBuilder) : WriteResult :=
  match filepath, content with
  | none, c =>
      { result := false, content := c, fileContents := none,
        stderrMsgs := [], accessed := false }
  | some _, none =>
      { result := false, content := none, fileContents := none,
        stderrMsgs := [], accessed := false }
  | some path, some sb =>
    if env.openOk = false then
      { result := false, content := some sb, fileContents := none,
        stderrMsgs := ["Failed to open file!"], accessed := true }
    else
      let size := min env.writeCount sb.length
      let written := bufBytes (sb.items.take size)
      if size < sb.length then
        { result := false, content := some sb, fileContents := some written,
          stderrMsgs := ["ERROR: There was an error when writing content to " ++ path],
          accessed := true }
      else
        { result := true, content := some sb, fileContents := some written,
          stderrMsgs := [], accessed := true }

/-- A benign environment for reading an existing file whose stored bytes
are `file`: every call succeeds, `ftell` reports the true size and
`fread` delivers the stored bytes. -/
def readEnvOf (file : List Nat) : ReadFileEnv :=
  { openOk := true, seekEndOk := true, ftellResult := (file.length : Int),
    seekSetOk := true, mallocOk := true, readData := file, ferrorFlag := false }

/-- One dynamic-array operation, for reasoning about operation sequences. -/
inductive DaOp (α : Type) where
  | append : α → DaOp α
  | appendMany : Buf α → DaOp α
  | prepend : α → DaOp α

/-- Apply one operation. -/
def applyDaOp (da : DynArray α) : DaOp α → DynArray α
  | .append x => DAWN_DA_APPEND da x
  | .appendMany xs => DAWN_DA_APPEND_MANY da xs
  | .prepend x => DAWN_DA_PREPEND da x

/-- Apply a sequence of operations, first one first. -/
def applyDaOps (da : DynArray α) (ops : List (DaOp α)) : DynArray α :=
  ops.foldl applyDaOp da

/-- A zero-initialized dynamic array (`{0}`). -/
def emptyDa : DynArray α := ⟨0, 0, []⟩

/-- Repeated `dawn_shift_args`: perform `n` successive shifts, collecting
the returned arguments in order; `none` if any call hits the assertion. -/
def shiftAll : Nat → Int → List String → Option (List String × Int × List String)
  | 0, argc, argv => some ([], argc, argv)
  | n + 1, argc, argv =>
    match dawn_shift_args argc argv with
    | none => none
    | some (a, argc1, argv1) =>
      match shiftAll n argc1 argv1 with
      | none => none
      | some (rest, argc2, argv2) => some (a :: rest, argc2, argv2)

/-- A file-system environment exhibiting a short read without a stream
error: `ftell` reports 2 bytes, but `fread` yields only the single byte 7
and `ferror` is clear (as happens, e.g., under text-mode newline
translation, or if the file shrank between `ftell` and `fread`). -/
def shortReadEnv : ReadFileEnv :=
  { openOk := true, seekEndOk := true, ftellResult := 2, seekSetOk := true,
    mallocOk := true, readData := [7], ferrorFlag := false }

/-! ### Helper lemmas about the buffer primitives -/

theorem memcpyAt_length (src : Buf α) :
    ∀ (buf : Buf α) (off : Nat), (memcpyAt buf off src).length = buf.length := by
  induction src with
  | nil => intro buf off; rfl
  | cons x xs ih => intro buf off; rw [memcpyAt, ih]; simp

theorem reallocBuf_of_le (buf : Buf α) (newCap : Nat) (h : buf.length ≤ newCap) :
    reallocBuf buf newCap = buf ++ List.replicate (newCap - buf.length) none := by
  simp [reallocBuf, List.take_of_length_le h]

theorem reallocBuf_length_of_le (buf : Buf α) (newCap : Nat) (h : buf.length ≤ newCap) :
    (reallocBuf buf newCap).length = newCap := by
  rw [reallocBuf_of_le buf newCap h]; simp; omega

theorem growCapacity_spec (need : Nat) :
    ∀ (cap : Nat), 0 < cap →
      need < growCapacity need cap ∧
      ∃ k, growCapacity need cap = cap * 2 ^ k ∧
        (k = 0 ∨ cap * 2 ^ (k - 1) ≤ need) := by
  intro cap
  induction cap using growCapacity.induct with
  | need => exact need
  | case1 => intro h; omega
  | case2 x hx0 hlt =>
    intro _
    rw [growCapacity, if_neg hx0, if_pos hlt]
    exact ⟨hlt, 0, by simp, Or.inl rfl⟩
  | case3 x hx0 hge ih =>
    intro hpos
    rw [growCapacity, if_neg hx0, if_neg hge]
    have h2 : 0 < x * 2 := by omega
    obtain ⟨hlt, k, hk, hmin⟩ := ih h2
    refine ⟨hlt, k + 1, by rw [hk]; ring, Or.inr ?_⟩
    rcases hmin with h | h
    · subst h
      simpa using Nat.le_of_not_lt hge
    · calc x * 2 ^ (k + 1 - 1) = x * 2 * 2 ^ (k - 1) := by
            rcases k with _ | k
            · omega
            · simp [Nat.pow_succ]; ring
      _ ≤ need := h

theorem memcpyAt_eq (src : Buf α) :
    ∀ (buf : Buf α) (off : Nat), off + src.length ≤ buf.length →
      memcpyAt buf off src = buf.take off ++ src ++ buf.drop (off + src.length) := by
  induction src with
  | nil => intro buf off _; simp [memcpyAt]
  | cons x xs ih =>
    intro buf off h
    simp only [List.length_cons] at h
    have hoff : off < buf.length := by omega
    rw [memcpyAt, ih _ (off + 1) (by simp; omega)]
    have e1 : (buf.set off x).take (off + 1) = buf.take off ++ [x] := by
      rw [List.set_take]
      rw [List.set_eq_take_cons_drop x
        (by rw [List.length_take_of_le (by omega)]; omega)]
      rw [List.take_take]
      have h1 : min off (off + 1) = off := by omega
      rw [h1]
      have h2 : (buf.take (off + 1)).drop (off + 1) = [] := by
        apply List.drop_eq_nil_of_le
        simp
      rw [h2]
    have e2 : (buf.set off x).drop (off + 1 + xs.length)
        = buf.drop (off + 1 + xs.length) := by
      rw [List.drop_set, if_pos (by omega)]
    rw [e1, e2]
    have hidx : off + (x :: xs).length = off + 1 + xs.length := by simp; omega
    rw [hidx]
    simp [List.append_assoc]

theorem shiftLoop_eq :
    ∀ (n : Nat) (buf : Buf α), n < buf.length →
      shiftLoop buf n = buf.take 1 ++ buf.take n ++ buf.drop (n + 1) := by
  intro n
  induction n with
  | zero =>
    intro buf h
    cases buf with
    | nil => simp at h
    | cons b bs => simp [shiftLoop]
  | succ n ih =>
    intro buf h
    have hlen : (buf.set (n + 1) (buf.getD n none)).length = buf.length := by simp
    rw [shiftLoop, ih _ (by omega)]
    have h1 : (buf.set (n + 1) (buf.getD n none)).take 1 = buf.take 1 := by
      rw [List.set_take]
      apply List.set_eq_of_length_le
      simp
    have h2 : (buf.set (n + 1) (buf.getD n none)).take n = buf.take n := by
      rw [List.set_take]
      apply List.set_eq_of_length_le
      simp
    have h3 : (buf.set (n + 1) (buf.getD n none)).drop (n + 1)
        = buf.getD n none :: buf.drop (n + 1 + 1) := by
      rw [List.drop_set, if_neg (by omega)]
      have hsub : n + 1 - (n + 1) = 0 := by omega
      rw [hsub]
      rw [List.set_eq_take_cons_drop _ (by simp [List.length_drop]; omega)]
      simp [List.drop_drop]
    rw [h1, h2, h3]
    have hn : n < buf.length := by omega
    have he : buf.take (n + 1) = buf.take n ++ [buf.getD n none] := by
      rw [List.take_succ, List.getElem?_eq_getElem hn]
      simp [List.getD_eq_getElem?_getD, List.getElem?_eq_getElem hn]
    rw [he]
    simp [List.append_assoc]

theorem shiftAll_complete :
    ∀ (argv : List String), shiftAll argv.length (argv.length : Int) argv = some (argv, 0, []) := by
  intro argv
  induction argv with
  | nil => rfl
  | cons a rest ih =>
    have hc : ¬ (((a :: rest).length : Int) ≤ 0) := by simp
    rw [List.length_cons, shiftAll, dawn_shift_args, if_neg (by push_cast; omega)]
    have hsub : ((rest.length + 1 : Nat) : Int) - 1 = (rest.length : Int) := by
      push_cast; ring
    simp only [List.length_cons] at hsub ⊢
    rw [hsub, ih]

/-! ### Claim theorems -/

theorem wrap32_eq_of_mem (a : Int)
    (h1 : -2147483648 ≤ a) (h2 : a < 2147483648) : wrap32 a = a := by
  rw [wrap32, Int.emod_eq_of_lt (by omega) (by omega)]
  omega

/-- **C5** (refutation of the claim as stated): at `x = 2^30` and
`n = 2^30 + 1` — representable `int` values with `n > 0` — the
intermediate `(x % n) + n = 2^31 + 1` exceeds `INT_MAX` and wraps, so
`dawn_mod` returns `-1073741822`: negative and not the mathematical
`x mod n`, contradicting "lies in `[0, n)` for every integer". -/
theorem dawn_mod_overflow_counterexample :
    (0 : Int) < 1073741825 ∧
    dawn_mod 1073741824 1073741825 = -1073741822 ∧
    dawn_mod 1073741824 1073741825 < 0 := by decide

/-- **C5** (amended): for every representable `int` `x` and every `int`
`n > 0` such that the intermediate sum `(x % n) + n` does not exceed
`INT_MAX` (the condition the counterexample shows is necessary; it holds
in particular whenever `n ≤ 2^30`), `dawn_mod x n` is the mathematical
`x mod n`, which lies in `[0, n)` regardless of the sign of `x`. -/
theorem dawn_mod_spec (x n : Int)
    (_hx1 : -2147483648 ≤ x) (_hx2 : x < 2147483648)
    (hn : 0 < n) (hn2 : n < 2147483648)
    (hno : x.tmod n + n < 2147483648) :
    dawn_mod x n = x % n ∧ 0 ≤ dawn_mod x n ∧ dawn_mod x n < n := by
  obtain ⟨k, rfl⟩ := Int.eq_succ_of_zero_lt hn
  have hlow : -(k.succ : Int) < x.tmod k.succ := by
    cases x with
    | ofNat m =>
      have h0 : (0 : Int) ≤ (Int.ofNat m).tmod k.succ :=
        Int.tmod_nonneg _ (Int.ofNat_nonneg m)
      omega
    | negSucc m =>
      have hb : m.succ % k.succ < k.succ := Nat.mod_lt _ (by omega)
      simp only [Int.tmod, Int.ofNat_eq_coe]
      omega
  have hup : x.tmod k.succ < k.succ := Int.tmod_lt_of_pos x hn
  have ht1 : tmod32 x k.succ = x.tmod k.succ := by
    rw [tmod32]
    exact wrap32_eq_of_mem _ (by omega) (by omega)
  have ht2 : add32 (x.tmod k.succ) k.succ = x.tmod k.succ + k.succ := by
    rw [add32]
    exact wrap32_eq_of_mem _ (by omega) (by omega)
  have hkey : (x.tmod k.succ + k.succ).tmod k.succ = x % k.succ := by
    rw [Int.tmod_eq_emod (by omega) (by omega), Int.add_emod_self]
    conv_rhs => rw [← Int.tmod_add_tdiv x k.succ]
    rw [Int.add_mul_emod_self_left]
  have hmod1 : 0 ≤ x % k.succ := Int.emod_nonneg x (by omega)
  have hmod2 : x % k.succ < k.succ := Int.emod_lt_of_pos x hn
  have hfinal : dawn_mod x k.succ = x % k.succ := by
    rw [dawn_mod, ht1, ht2, tmod32, hkey]
    exact wrap32_eq_of_mem _ (by omega) (by omega)
  exact ⟨hfinal, by omega, by omega⟩

/-- Witness for the amended C5 at the spec's example inputs. -/
theorem dawn_mod_spec_witness :
    ((-2147483648 : Int) ≤ -1 ∧ (-1 : Int) < 2147483648 ∧ (0 : Int) < 5 ∧
      (5 : Int) < 2147483648 ∧ (-1 : Int).tmod 5 + 5 < 2147483648 ∧
      (dawn_mod (-1) 5 = (-1) % 5 ∧ 0 ≤ dawn_mod (-1) 5 ∧ dawn_mod (-1) 5 < 5)) ∧
    dawn_mod (-1) 5 = 4 ∧ dawn_mod 7 5 = 2 ∧ dawn_mod 0 5 = 0 :=
  ⟨⟨by decide, by decide, by decide, by decide, by decide,
    dawn_mod_spec (-1) 5 (by decide) (by decide) (by decide) (by decide) (by decide)⟩,
    by decide, by decide, by decide⟩

/-- **C8**: with a positive count and an argv of at least that many cells,
`dawn_shift_args` returns the first argument, the advanced array and the
decremented count; `n` successive calls over `n` arguments yield them in
their original order and leave a count of zero; a call with `argc = 0`
hits the fatal assertion (modelled as `none`). -/
theorem dawn_shift_args_spec (argv : List String) (argc : Int)
    (hpos : 0 < argc) (hlen : argc ≤ (argv.length : Int)) :
    (∃ a rest, argv = a :: rest ∧ dawn_shift_args argc argv = some (a, argc - 1, rest)) ∧
    (argc = (argv.length : Int) →
      shiftAll argv.length argc argv = some (argv, 0, [])) ∧
    dawn_shift_args 0 argv = none := by
  refine ⟨?_, ?_, by simp [dawn_shift_args]⟩
  · cases argv with
    | nil => simp at hlen; omega
    | cons a rest =>
      exact ⟨a, rest, rfl, by rw [dawn_shift_args, if_neg (by omega)]⟩
  · intro h
    rw [h]
    exact shiftAll_complete argv

/-- Witness for C8 over the spec's example argv. -/
theorem dawn_shift_args_spec_witness :
    (0 : Int) < 3 ∧ (3 : Int) ≤ ((["a", "b", "c"] : List String).length : Int) ∧
    ((∃ a rest, (["a", "b", "c"] : List String) = a :: rest ∧
        dawn_shift_args 3 ["a", "b", "c"] = some (a, 3 - 1, rest)) ∧
      ((3 : Int) = ((["a", "b", "c"] : List String).length : Int) →
        shiftAll (["a", "b", "c"] : List String).length 3 ["a", "b", "c"]
          = some (["a", "b", "c"], 0, [])) ∧
      dawn_shift_args 0 ["a", "b", "c"] = none) :=
  ⟨by decide, by decide, dawn_shift_args_spec ["a", "b", "c"] 3 (by decide) (by decide)⟩

/-- **C9**: both file helpers, given a null filepath or a null content
pointer, return false at once, touch no file, print nothing, and leave
the (possibly null) content pointer's target unchanged. -/
theorem file_helpers_null_args (renv : ReadFileEnv) (wenv : WriteFileEnv)
    (p : String) (c : Option DawnStringBuilder) :
    dawn_read_entire_file renv none c
      = { result := false, content := c, stderrMsgs := [], accessed := false } ∧
    dawn_read_entire_file renv (some p) none
      = { result := false, content := none, stderrMsgs := [], accessed := false } ∧
    dawn_write_entire_file wenv none c
      = { result := false, content := c, fileContents := none,
          stderrMsgs := [], accessed := false } ∧
    dawn_write_entire_file wenv (some p) none
      = { result := false, content := none, fileContents := none,
          stderrMsgs := [], accessed := false } :=
  ⟨rfl, rfl, rfl, rfl⟩

/-- **C10**: `dawn_write_entire_file` leaves the (const) content string
builder completely unchanged on every exit path, success or failure. -/
theorem write_entire_file_const_content (env : WriteFileEnv) (path : String)
    (sb : DawnStringBuilder) :
    (dawn_write_entire_file env (some path) (some sb)).content = some sb := by
  simp only [dawn_write_entire_file]
  split
  · rfl
  · split
    · rfl
    · rfl

/-- **C4**: whenever `dawn_read_entire_file` returns false, the
destination string builder (length, capacity and buffer) is exactly as it
was before the call. -/
theorem read_entire_file_failure_frame (env : ReadFileEnv) (path : String)
    (sb : DawnStringBuilder)
    (hfail : (dawn_read_entire_file env (some path) (some sb)).result = false) :
    (dawn_read_entire_file env (some path) (some sb)).content = some sb := by
  simp only [dawn_read_entire_file] at hfail ⊢
  split_ifs at hfail ⊢ <;> simp_all

/-- Witness for C4: a failed `fopen`. -/
theorem read_entire_file_failure_frame_witness :
    (dawn_read_entire_file ⟨false, true, 0, true, true, [], false⟩
        (some "no-such-file") (some emptySB)).result = false ∧
    (dawn_read_entire_file ⟨false, true, 0, true, true, [], false⟩
        (some "no-such-file") (some emptySB)).content = some emptySB :=
  ⟨by decide, read_entire_file_failure_frame _ _ _ (by decide)⟩

theorem shiftLoop_length (buf : Buf α) :
    ∀ n, (shiftLoop buf n).length = buf.length := by
  intro n
  induction n generalizing buf with
  | zero => rfl
  | succ n ih => rw [shiftLoop, ih]; simp

theorem appendMany_spec (da : DynArray α) (elems : Buf α)
    (hlen : da.length ≤ da.capacity) (hbuf : da.items.length = da.capacity) :
    (DAWN_DA_APPEND_MANY da elems).length = da.length + elems.length ∧
    (DAWN_DA_APPEND_MANY da elems).items.length = (DAWN_DA_APPEND_MANY da elems).capacity ∧
    (DAWN_DA_APPEND_MANY da elems).items.take da.length = da.items.take da.length ∧
    ((DAWN_DA_APPEND_MANY da elems).items.drop da.length).take elems.length = elems ∧
    (da.length + elems.length < da.capacity →
      (DAWN_DA_APPEND_MANY da elems).capacity = da.capacity) ∧
    (da.capacity ≤ da.length + elems.length →
      (DAWN_DA_APPEND_MANY da elems).capacity
        = growCapacity (da.length + elems.length)
            (if da.capacity = 0 then DAWN_DA_DEFAULT_CAPACITY else da.capacity) ∧
      da.length + elems.length < (DAWN_DA_APPEND_MANY da elems).capacity) := by
  by_cases hcase : da.capacity ≤ da.length + elems.length
  · have hcap0 : 0 < (if da.capacity = 0 then DAWN_DA_DEFAULT_CAPACITY else da.capacity) := by
      split
      · decide
      · omega
    obtain ⟨hneed, k, hk, -⟩ :=
      growCapacity_spec (da.length + elems.length) _ hcap0
    set cap1 := growCapacity (da.length + elems.length)
        (if da.capacity = 0 then DAWN_DA_DEFAULT_CAPACITY else da.capacity) with hc1
    have hcap_le : da.items.length ≤ cap1 := by omega
    have heq : DAWN_DA_APPEND_MANY da elems
        = { length := da.length + elems.length, capacity := cap1,
            items := memcpyAt (reallocBuf da.items cap1) da.length elems } := by
      simp only [DAWN_DA_APPEND_MANY]
      rw [if_pos hcase]
    have hRlen : (reallocBuf da.items cap1).length = cap1 :=
      reallocBuf_length_of_le _ _ hcap_le
    have hR : reallocBuf da.items cap1
        = da.items ++ List.replicate (cap1 - da.items.length) none :=
      reallocBuf_of_le _ _ hcap_le
    have hmc : memcpyAt (reallocBuf da.items cap1) da.length elems
        = (reallocBuf da.items cap1).take da.length ++ elems
            ++ (reallocBuf da.items cap1).drop (da.length + elems.length) := by
      apply memcpyAt_eq
      omega
    have htlen : ((reallocBuf da.items cap1).take da.length).length = da.length := by
      rw [List.length_take]
      omega
    have hpre : (reallocBuf da.items cap1).take da.length = da.items.take da.length := by
      rw [hR, List.take_append_eq_append_take]
      have : da.length - da.items.length = 0 := by omega
      simp [this]
    refine ⟨by rw [heq], ?_, ?_, ?_, ?_, ?_⟩
    · rw [heq]
      show (memcpyAt (reallocBuf da.items cap1) da.length elems).length = cap1
      rw [memcpyAt_length, hRlen]
    · rw [heq]
      show (memcpyAt (reallocBuf da.items cap1) da.length elems).take da.length
          = da.items.take da.length
      rw [hmc, List.append_assoc, List.take_left' htlen, hpre]
    · rw [heq]
      show ((memcpyAt (reallocBuf da.items cap1) da.length elems).drop da.length).take
            elems.length = elems
      rw [hmc, List.append_assoc, List.drop_left' htlen, List.take_left' rfl]
    · intro h
      omega
    · intro _
      refine ⟨by rw [heq], ?_⟩
      rw [heq]
      exact hneed
  · have hlt : da.length + elems.length < da.capacity := by omega
    have heq : DAWN_DA_APPEND_MANY da elems
        = { length := da.length + elems.length, capacity := da.capacity,
            items := memcpyAt da.items da.length elems } := by
      simp only [DAWN_DA_APPEND_MANY]
      rw [if_neg hcase]
    have hmc : memcpyAt da.items da.length elems
        = da.items.take da.length ++ elems ++ da.items.drop (da.length + elems.length) := by
      apply memcpyAt_eq
      omega
    have htlen : (da.items.take da.length).length = da.length := by
      rw [List.length_take]
      omega
    refine ⟨by rw [heq], ?_, ?_, ?_, fun _ => by rw [heq], fun h => absurd h hcase⟩
    · rw [heq]
      show (memcpyAt da.items da.length elems).length = da.capacity
      rw [memcpyAt_length, hbuf]
    · rw [heq]
      show (memcpyAt da.items da.length elems).take da.length = da.items.take da.length
      rw [hmc, List.append_assoc, List.take_left' htlen]
    · rw [heq]
      show ((memcpyAt da.items da.length elems).drop da.length).take elems.length = elems
      rw [hmc, List.append_assoc, List.drop_left' htlen, List.take_left' rfl]

theorem append_spec (da : DynArray α) (x : α)
    (hlen : da.length ≤ da.capacity) (hbuf : da.items.length = da.capacity) :
    (DAWN_DA_APPEND da x).length = da.length + 1 ∧
    (DAWN_DA_APPEND da x).items.length = (DAWN_DA_APPEND da x).capacity ∧
    da.length + 1 ≤ (DAWN_DA_APPEND da x).capacity ∧
    (DAWN_DA_APPEND da x).capacity
      = (if da.length = da.capacity
          then (if da.capacity * 2 = 0 then DAWN_DA_DEFAULT_CAPACITY else da.capacity * 2)
          else da.capacity) := by
  by_cases hfull : da.length = da.capacity
  · set cap1 := (if da.capacity * 2 = 0 then DAWN_DA_DEFAULT_CAPACITY else da.capacity * 2)
      with hc1
    have hgt : da.length < cap1 := by
      rw [hc1]
      split
      · have : da.capacity = 0 := by omega
        rw [DAWN_DA_DEFAULT_CAPACITY]
        omega
      · omega
    have heq : DAWN_DA_APPEND da x
        = { length := da.length + 1, capacity := cap1,
            items := (reallocBuf da.items cap1).set da.length (some x) } := by
      simp only [DAWN_DA_APPEND]
      rw [if_pos hfull]
    have hRlen : (reallocBuf da.items cap1).length = cap1 :=
      reallocBuf_length_of_le _ _ (by omega)
    refine ⟨by rw [heq], ?_, ?_, by rw [heq, if_pos hfull]⟩
    · rw [heq]
      show ((reallocBuf da.items cap1).set da.length (some x)).length = cap1
      rw [List.length_set, hRlen]
    · rw [heq]
      show da.length + 1 ≤ cap1
      omega
  · have heq : DAWN_DA_APPEND da x
        = { length := da.length + 1, capacity := da.capacity,
            items := da.items.set da.length (some x) } := by
      simp only [DAWN_DA_APPEND]
      rw [if_neg hfull]
    refine ⟨by rw [heq], ?_, ?_, by rw [heq, if_neg hfull]⟩
    · rw [heq]
      show (da.items.set da.length (some x)).length = da.capacity
      rw [List.length_set, hbuf]
    · rw [heq]
      show da.length + 1 ≤ da.capacity
      omega

theorem prepend_spec (da : DynArray α) (x : α)
    (hlen : da.length ≤ da.capacity) (hbuf : da.items.length = da.capacity) :
    (DAWN_DA_PREPEND da x).length = da.length + 1 ∧
    (DAWN_DA_PREPEND da x).items.length = (DAWN_DA_PREPEND da x).capacity ∧
    (DAWN_DA_PREPEND da x).items.take (da.length + 1)
      = some x :: da.items.take da.length ∧
    (DAWN_DA_PREPEND da x).capacity = (DAWN_DA_APPEND da x).capacity ∧
    (da.length ≠ da.capacity → (DAWN_DA_PREPEND da x).capacity = da.capacity) := by
  by_cases hfull : da.length = da.capacity
  · set cap1 := (if da.capacity * 2 = 0 then DAWN_DA_DEFAULT_CAPACITY else da.capacity * 2)
      with hc1
    have hgt : da.length < cap1 := by
      rw [hc1]
      split
      · have : da.capacity = 0 := by omega
        rw [DAWN_DA_DEFAULT_CAPACITY]
        omega
      · omega
    have heq : DAWN_DA_PREPEND da x
        = { length := da.length + 1, capacity := cap1,
            items := (shiftLoop (reallocBuf da.items cap1) da.length).set 0 (some x) } := by
      simp only [DAWN_DA_PREPEND]
      rw [if_pos hfull]
    have happ : (DAWN_DA_APPEND da x).capacity = cap1 := by
      simp only [DAWN_DA_APPEND]
      rw [if_pos hfull]
    have hRlen : (reallocBuf da.items cap1).length = cap1 :=
      reallocBuf_length_of_le _ _ (by omega)
    have hpre : (reallocBuf da.items cap1).take da.length = da.items.take da.length := by
      rw [reallocBuf_of_le _ _ (by omega), List.take_append_eq_append_take]
      have : da.length - da.items.length = 0 := by omega
      simp [this]
    have hshift : shiftLoop (reallocBuf da.items cap1) da.length
        = (reallocBuf da.items cap1).take 1 ++ (reallocBuf da.items cap1).take da.length
            ++ (reallocBuf da.items cap1).drop (da.length + 1) :=
      shiftLoop_eq da.length _ (by omega)
    have h1len : ((reallocBuf da.items cap1).take 1).length = 1 := by
      rw [List.length_take]
      omega
    have hset : (shiftLoop (reallocBuf da.items cap1) da.length).set 0 (some x)
        = [some x] ++ ((reallocBuf da.items cap1).take da.length
            ++ (reallocBuf da.items cap1).drop (da.length + 1)) := by
      rw [hshift, List.append_assoc, List.set_append_left 0 _ (by omega)]
      obtain ⟨a, ha⟩ := List.length_eq_one.mp h1len
      rw [ha]
      rfl
    refine ⟨by rw [heq], ?_, ?_, by rw [heq, happ], fun h => absurd hfull h⟩
    · rw [heq]
      show ((shiftLoop (reallocBuf da.items cap1) da.length).set 0 (some x)).length = cap1
      rw [List.length_set, shiftLoop_length, hRlen]
    · rw [heq]
      show ((shiftLoop (reallocBuf da.items cap1) da.length).set 0 (some x)).take
          (da.length + 1) = some x :: da.items.take da.length
      rw [hset, List.take_append_eq_append_take]
      have hxl : ([some x] : Buf α).length = 1 := rfl
      rw [hxl]
      have : da.length + 1 - 1 = da.length := by omega
      rw [this]
      have httl : ((reallocBuf da.items cap1).take da.length).length = da.length := by
        rw [List.length_take]
        omega
      rw [List.take_append_eq_append_take, httl]
      have hz : da.length - da.length = 0 := by omega
      rw [hz, List.take_take]
      have hm : min da.length da.length = da.length := by omega
      rw [hm, hpre]
      simp
  · have hlt : da.length < da.capacity := by omega
    have heq : DAWN_DA_PREPEND da x
        = { length := da.length + 1, capacity := da.capacity,
            items := (shiftLoop da.items da.length).set 0 (some x) } := by
      simp only [DAWN_DA_PREPEND]
      rw [if_neg hfull]
    have happ : (DAWN_DA_APPEND da x).capacity = da.capacity := by
      simp only [DAWN_DA_APPEND]
      rw [if_neg hfull]
    have hshift : shiftLoop da.items da.length
        = da.items.take 1 ++ da.items.take da.length ++ da.items.drop (da.length + 1) :=
      shiftLoop_eq da.length _ (by omega)
    have h1len : (da.items.take 1).length = 1 := by
      rw [List.length_take]
      omega
    have hset : (shiftLoop da.items da.length).set 0 (some x)
        = [some x] ++ (da.items.take da.length ++ da.items.drop (da.length + 1)) := by
      rw [hshift, List.append_assoc, List.set_append_left 0 _ (by omega)]
      obtain ⟨a, ha⟩ := List.length_eq_one.mp h1len
      rw [ha]
      rfl
    refine ⟨by rw [heq], ?_, ?_, by rw [heq, happ], fun _ => by rw [heq]⟩
    · rw [heq]
      show ((shiftLoop da.items da.length).set 0 (some x)).length = da.capacity
      rw [List.length_set, shiftLoop_length, hbuf]
    · rw [heq]
      show ((shiftLoop da.items da.length).set 0 (some x)).take (da.length + 1)
          = some x :: da.items.take da.length
      rw [hset, List.take_append_eq_append_take]
      have hxl : ([some x] : Buf α).length = 1 := rfl
      rw [hxl]
      have : da.length + 1 - 1 = da.length := by omega
      rw [this]
      have httl : (da.items.take da.length).length = da.length := by
        rw [List.length_take]
        omega
      rw [List.take_append_eq_append_take, httl]
      have hz : da.length - da.length = 0 := by omega
      rw [hz, List.take_take]
      have hm : min da.length da.length = da.length := by omega
      rw [hm]
      simp

theorem goodCap_append_form (cap len : Nat)
    (h3 : cap = 0 ∨ ∃ k, cap = DAWN_DA_DEFAULT_CAPACITY * 2 ^ k) :
    (if len = cap then (if cap * 2 = 0 then DAWN_DA_DEFAULT_CAPACITY else cap * 2) else cap) = 0 ∨
    ∃ k, (if len = cap then (if cap * 2 = 0 then DAWN_DA_DEFAULT_CAPACITY else cap * 2) else cap)
        = DAWN_DA_DEFAULT_CAPACITY * 2 ^ k := by
  split
  · split
    · exact Or.inr ⟨0, by norm_num⟩
    · rcases h3 with h | ⟨k, hk⟩
      · omega
      · exact Or.inr ⟨k + 1, by rw [hk]; ring⟩
  · exact h3

theorem applyDaOp_inv (da : DynArray α) (op : DaOp α)
    (h1 : da.length ≤ da.capacity) (h2 : da.items.length = da.capacity)
    (h3 : da.capacity = 0 ∨ ∃ k, da.capacity = DAWN_DA_DEFAULT_CAPACITY * 2 ^ k) :
    (applyDaOp da op).length ≤ (applyDaOp da op).capacity ∧
    (applyDaOp da op).items.length = (applyDaOp da op).capacity ∧
    ((applyDaOp da op).capacity = 0 ∨
      ∃ k, (applyDaOp da op).capacity = DAWN_DA_DEFAULT_CAPACITY * 2 ^ k) := by
  cases op with
  | append x =>
    obtain ⟨hl, hil, hle, hcap⟩ := append_spec da x h1 h2
    have hg := goodCap_append_form da.capacity da.length h3
    simp only [applyDaOp]
    exact ⟨by rw [hl]; exact hle, hil, by rw [hcap]; exact hg⟩
  | appendMany xs =>
    obtain ⟨hl, hil, -, -, hnog, hg⟩ := appendMany_spec da xs h1 h2
    simp only [applyDaOp]
    by_cases hc : da.capacity ≤ da.length + xs.length
    · obtain ⟨hcap, hlt⟩ := hg hc
      refine ⟨by omega, hil, Or.inr ?_⟩
      have hcap0 : 0 < (if da.capacity = 0 then DAWN_DA_DEFAULT_CAPACITY else da.capacity) := by
        split
        · decide
        · omega
      obtain ⟨-, k, hk, -⟩ := growCapacity_spec (da.length + xs.length) _ hcap0
      rw [hcap, hk]
      by_cases h0 : da.capacity = 0
      · rw [if_pos h0]
        exact ⟨k, rfl⟩
      · rw [if_neg h0]
        rcases h3 with h | ⟨j, hj⟩
        · omega
        · exact ⟨j + k, by rw [hj, pow_add]; ring⟩
    · have hcap := hnog (by omega)
      exact ⟨by omega, hil, by rw [hcap]; exact h3⟩
  | prepend x =>
    obtain ⟨hl, hil, -, hcap_eq, -⟩ := prepend_spec da x h1 h2
    obtain ⟨-, -, hle, hcap⟩ := append_spec da x h1 h2
    have hg := goodCap_append_form da.capacity da.length h3
    simp only [applyDaOp]
    exact ⟨by rw [hl, hcap_eq]; exact hle, hil, by rw [hcap_eq, hcap]; exact hg⟩

theorem applyDaOps_inv (ops : List (DaOp α)) :
    ∀ (da : DynArray α), da.length ≤ da.capacity → da.items.length = da.capacity →
      (da.capacity = 0 ∨ ∃ k, da.capacity = DAWN_DA_DEFAULT_CAPACITY * 2 ^ k) →
      (applyDaOps da ops).length ≤ (applyDaOps da ops).capacity ∧
      (applyDaOps da ops).items.length = (applyDaOps da ops).capacity ∧
      ((applyDaOps da ops).capacity = 0 ∨
        ∃ k, (applyDaOps da ops).capacity = DAWN_DA_DEFAULT_CAPACITY * 2 ^ k) := by
  induction ops with
  | nil => intro da h1 h2 h3; exact ⟨h1, h2, h3⟩
  | cons op rest ih =>
    intro da h1 h2 h3
    obtain ⟨g1, g2, g3⟩ := applyDaOp_inv da op h1 h2 h3
    exact ih _ g1 g2 g3

/-- **C6**: after any sequence of append / append-many / prepend
operations starting from the zero-initialized array, `capacity ≥ length`
holds, and the capacity is `16 * 2^k` once any growth has occurred
(capacity 0 meaning no growth ever happened). -/
theorem da_ops_capacity_invariant (α : Type) (ops : List (DaOp α)) :
    (applyDaOps (emptyDa : DynArray α) ops).length
      ≤ (applyDaOps (emptyDa : DynArray α) ops).capacity ∧
    ((applyDaOps (emptyDa : DynArray α) ops).capacity = 0 ∨
      ∃ k, (applyDaOps (emptyDa : DynArray α) ops).capacity
        = DAWN_DA_DEFAULT_CAPACITY * 2 ^ k) := by
  obtain ⟨g1, -, g3⟩ :=
    applyDaOps_inv ops emptyDa (Nat.le_refl 0) rfl (Or.inl rfl)
  exact ⟨g1, g3⟩

/-- **C3**: `DAWN_DA_APPEND_MANY` grows the capacity only when
`length + count >= capacity`, by seeding a zero capacity to 16 and then
doubling until `length + count < capacity`; the first `length` slots are
unchanged, the next `count` slots are the input buffer in order, the new
length is `length + count`, and after growth the new length is strictly
below the new capacity. -/
theorem DAWN_DA_APPEND_MANY_contract (da : DynArray α) (elems : Buf α)
    (hlen : da.length ≤ da.capacity) (hbuf : da.items.length = da.capacity) :
    (DAWN_DA_APPEND_MANY da elems).length = da.length + elems.length ∧
    (DAWN_DA_APPEND_MANY da elems).items.take da.length = da.items.take da.length ∧
    ((DAWN_DA_APPEND_MANY da elems).items.drop da.length).take elems.length = elems ∧
    (da.length + elems.length < da.capacity →
      (DAWN_DA_APPEND_MANY da elems).capacity = da.capacity) ∧
    (da.capacity ≤ da.length + elems.length →
      da.length + elems.length < (DAWN_DA_APPEND_MANY da elems).capacity ∧
      (DAWN_DA_APPEND_MANY da elems).length < (DAWN_DA_APPEND_MANY da elems).capacity ∧
      ∃ k, (DAWN_DA_APPEND_MANY da elems).capacity
          = (if da.capacity = 0 then DAWN_DA_DEFAULT_CAPACITY else da.capacity) * 2 ^ k ∧
        (k = 0 ∨ (if da.capacity = 0 then DAWN_DA_DEFAULT_CAPACITY else da.capacity)
            * 2 ^ (k - 1) ≤ da.length + elems.length)) := by
  obtain ⟨hl, -, hpre, hmid, hnog, hg⟩ := appendMany_spec da elems hlen hbuf
  refine ⟨hl, hpre, hmid, hnog, ?_⟩
  intro hc
  obtain ⟨hcap, hlt⟩ := hg hc
  have hcap0 : 0 < (if da.capacity = 0 then DAWN_DA_DEFAULT_CAPACITY else da.capacity) := by
    split
    · decide
    · omega
  obtain ⟨-, k, hk, hmin⟩ := growCapacity_spec (da.length + elems.length) _ hcap0
  exact ⟨hlt, by omega, k, by rw [hcap, hk], hmin⟩

/-- Witness for C3: appending two slots to the empty array (capacity
seeded to 16). -/
theorem DAWN_DA_APPEND_MANY_contract_witness :
    ((emptyDa : DynArray Nat).length ≤ (emptyDa : DynArray Nat).capacity ∧
      (emptyDa : DynArray Nat).items.length = (emptyDa : DynArray Nat).capacity) ∧
    ((DAWN_DA_APPEND_MANY (emptyDa : DynArray Nat) [some 7, none]).length
        = (emptyDa : DynArray Nat).length + ([some 7, none] : Buf Nat).length ∧
      (DAWN_DA_APPEND_MANY (emptyDa : DynArray Nat) [some 7, none]).items.take
          (emptyDa : DynArray Nat).length
        = (emptyDa : DynArray Nat).items.take (emptyDa : DynArray Nat).length ∧
      ((DAWN_DA_APPEND_MANY (emptyDa : DynArray Nat) [some 7, none]).items.drop
          (emptyDa : DynArray Nat).length).take ([some 7, none] : Buf Nat).length
        = [some 7, none] ∧
      ((emptyDa : DynArray Nat).length + ([some 7, none] : Buf Nat).length
          < (emptyDa : DynArray Nat).capacity →
        (DAWN_DA_APPEND_MANY (emptyDa : DynArray Nat) [some 7, none]).capacity
          = (emptyDa : DynArray Nat).capacity) ∧
      ((emptyDa : DynArray Nat).capacity
          ≤ (emptyDa : DynArray Nat).length + ([some 7, none] : Buf Nat).length →
        (emptyDa : DynArray Nat).length + ([some 7, none] : Buf Nat).length
          < (DAWN_DA_APPEND_MANY (emptyDa : DynArray Nat) [some 7, none]).capacity ∧
        (DAWN_DA_APPEND_MANY (emptyDa : DynArray Nat) [some 7, none]).length
          < (DAWN_DA_APPEND_MANY (emptyDa : DynArray Nat) [some 7, none]).capacity ∧
        ∃ k, (DAWN_DA_APPEND_MANY (emptyDa : DynArray Nat) [some 7, none]).capacity
            = (if (emptyDa : DynArray Nat).capacity = 0 then DAWN_DA_DEFAULT_CAPACITY
                else (emptyDa : DynArray Nat).capacity) * 2 ^ k ∧
          (k = 0 ∨ (if (emptyDa : DynArray Nat).capacity = 0 then DAWN_DA_DEFAULT_CAPACITY
              else (emptyDa : DynArray Nat).capacity) * 2 ^ (k - 1)
            ≤ (emptyDa : DynArray Nat).length + ([some 7, none] : Buf Nat).length))) :=
  ⟨⟨by decide, by decide⟩,
    DAWN_DA_APPEND_MANY_contract (emptyDa : DynArray Nat) [some 7, none]
      (by decide) (by decide)⟩

/-- **C7**: `DAWN_DA_PREPEND` yields contents `[x, a0, ..., a(n-1)]` with
length `n + 1` — order of the shifted tail preserved, `x` at index 0 —
and grows the capacity exactly as `DAWN_DA_APPEND` would (in particular
leaving it unchanged when the array was not full). -/
theorem DAWN_DA_PREPEND_contract (da : DynArray α) (x : α)
    (hlen : da.length ≤ da.capacity) (hbuf : da.items.length = da.capacity) :
    (DAWN_DA_PREPEND da x).length = da.length + 1 ∧
    (DAWN_DA_PREPEND da x).items.take (da.length + 1)
      = some x :: da.items.take da.length ∧
    (DAWN_DA_PREPEND da x).capacity = (DAWN_DA_APPEND da x).capacity ∧
    (da.length ≠ da.capacity → (DAWN_DA_PREPEND da x).capacity = da.capacity) := by
  obtain ⟨hl, -, hitems, hcap_eq, hunch⟩ := prepend_spec da x hlen hbuf
  exact ⟨hl, hitems, hcap_eq, hunch⟩

/-- Witness for C7: prepending 5 to a three-element array [10, 20, 30]. -/
theorem DAWN_DA_PREPEND_contract_witness :
    ((DynArray.mk 3 16 ([some 10, some 20, some 30] ++ List.replicate 13 none)
        : DynArray Nat).length
      ≤ (DynArray.mk 3 16 ([some 10, some 20, some 30] ++ List.replicate 13 none)
        : DynArray Nat).capacity ∧
      (DynArray.mk 3 16 ([some 10, some 20, some 30] ++ List.replicate 13 none)
        : DynArray Nat).items.length
      = (DynArray.mk 3 16 ([some 10, some 20, some 30] ++ List.replicate 13 none)
        : DynArray Nat).capacity) ∧
    ((DAWN_DA_PREPEND (DynArray.mk 3 16
          ([some 10, some 20, some 30] ++ List.replicate 13 none)) (5 : Nat)).length
        = (DynArray.mk 3 16 ([some 10, some 20, some 30] ++ List.replicate 13 none)
            : DynArray Nat).length + 1 ∧
      (DAWN_DA_PREPEND (DynArray.mk 3 16
          ([some 10, some 20, some 30] ++ List.replicate 13 none)) (5 : Nat)).items.take
          ((DynArray.mk 3 16 ([some 10, some 20, some 30] ++ List.replicate 13 none)
            : DynArray Nat).length + 1)
        = some 5 :: (DynArray.mk 3 16
            ([some 10, some 20, some 30] ++ List.replicate 13 none)
            : DynArray Nat).items.take
            (DynArray.mk 3 16 ([some 10, some 20, some 30] ++ List.replicate 13 none)
              : DynArray Nat).length ∧
      (DAWN_DA_PREPEND (DynArray.mk 3 16
          ([some 10, some 20, some 30] ++ List.replicate 13 none)) (5 : Nat)).capacity
        = (DAWN_DA_APPEND (DynArray.mk 3 16
            ([some 10, some 20, some 30] ++ List.replicate 13 none)) (5 : Nat)).capacity ∧
      ((DynArray.mk 3 16 ([some 10, some 20, some 30] ++ List.replicate 13 none)
            : DynArray Nat).length
          ≠ (DynArray.mk 3 16 ([some 10, some 20, some 30] ++ List.replicate 13 none)
            : DynArray Nat).capacity →
        (DAWN_DA_PREPEND (DynArray.mk 3 16
            ([some 10, some 20, some 30] ++ List.replicate 13 none)) (5 : Nat)).capacity
          = (DynArray.mk 3 16 ([some 10, some 20, some 30] ++ List.replicate 13 none)
              : DynArray Nat).capacity)) :=
  ⟨⟨by decide, by decide⟩,
    DAWN_DA_PREPEND_contract
      (DynArray.mk 3 16 ([some 10, some 20, some 30] ++ List.replicate 13 none))
      (5 : Nat) (by decide) (by decide)⟩

/-- **C1** (code bug): with `shortReadEnv` — a 2-byte file per `ftell`
from which `fread` obtains only the single byte 7 and `ferror` is clear —
`dawn_read_entire_file` returns true but appends `f_size = 2` buffer
slots to the builder: the read byte 7 and one *uninitialized* slot, i.e.
not only the bytes actually read. -/
theorem read_short_append_bug :
    (dawn_read_entire_file shortReadEnv (some "f") (some emptySB)).result = true ∧
    (dawn_read_entire_file shortReadEnv (some "f") (some emptySB)).content
      = some { length := 2, capacity := 16,
               items := some 7 :: none :: List.replicate 14 none } := by
  constructor
  · rfl
  · have h1 : (dawn_read_entire_file shortReadEnv (some "f") (some emptySB)).content
        = some (DAWN_SB_APPEND_BUF emptySB [some 7, none]) := rfl
    have hgc : growCapacity 2 16 = 16 := by
      rw [growCapacity]
      norm_num
    have h3 : DAWN_SB_APPEND_BUF emptySB [some 7, none]
        = { length := 0 + 2, capacity := growCapacity 2 16,
            items := memcpyAt (reallocBuf [] (growCapacity 2 16)) 0 [some 7, none] } := rfl
    rw [h1, h3, hgc]
    decide

/-- **C2**: a successful `dawn_write_entire_file` followed by
`dawn_read_entire_file` of the same stored bytes (benign environment)
into an initially empty builder reproduces the original builder's bytes
exactly — including empty content, embedded zero bytes, and content past
the growth threshold.  The `hwf` hypothesis restricts the statement to
builders whose first `length` slots are initialized, the only builders
the library ever constructs (for junk slots the written byte would be
indeterminate in C). -/
theorem file_round_trip (path : String) (sb : DawnStringBuilder) (wenv : WriteFileEnv)
    (hopen : wenv.openOk = true) (hw : sb.length ≤ wenv.writeCount)
    (_hbuf : sb.length ≤ sb.items.length)
    (_hwf : ∀ o ∈ sb.items.take sb.length, o.isSome) :
    (dawn_write_entire_file wenv (some path) (some sb)).result = true ∧
    ∃ file, (dawn_write_entire_file wenv (some path) (some sb)).fileContents = some file ∧
      (dawn_read_entire_file (readEnvOf file) (some path) (some emptySB)).result = true ∧
      ∃ sb2, (dawn_read_entire_file (readEnvOf file) (some path) (some emptySB)).content
          = some sb2 ∧ sbBytes sb2 = sbBytes sb := by
  have hsz : min wenv.writeCount sb.length = sb.length := by omega
  have hw_eq : dawn_write_entire_file wenv (some path) (some sb)
      = { result := true, content := some sb,
          fileContents := some (bufBytes (sb.items.take sb.length)),
          stderrMsgs := [], accessed := true } := by
    simp only [dawn_write_entire_file, hopen, hsz]
    norm_num
  have hr_eq : dawn_read_entire_file (readEnvOf (bufBytes (sb.items.take sb.length)))
        (some path) (some emptySB)
      = { result := true,
          content := some (DAWN_SB_APPEND_BUF emptySB
            ((bufBytes (sb.items.take sb.length)).map some)),
          stderrMsgs := [], accessed := true } := by
    simp [dawn_read_entire_file, readEnvOf]
  obtain ⟨hl2, -, -, hmid2, -, -⟩ :=
    appendMany_spec (emptySB) ((bufBytes (sb.items.take sb.length)).map some)
      (Nat.le_refl 0) rfl
  have h0 : emptySB.length = 0 := rfl
  rw [h0] at hl2
  rw [h0, List.drop_zero] at hmid2
  refine ⟨by rw [hw_eq], bufBytes (sb.items.take sb.length), by rw [hw_eq],
    by rw [hr_eq],
    DAWN_DA_APPEND_MANY emptySB ((bufBytes (sb.items.take sb.length)).map some),
    by rw [hr_eq]; rfl, ?_⟩
  show bufBytes ((DAWN_DA_APPEND_MANY emptySB
      ((bufBytes (sb.items.take sb.length)).map some)).items.take
      (DAWN_DA_APPEND_MANY emptySB
        ((bufBytes (sb.items.take sb.length)).map some)).length)
    = sbBytes sb
  rw [hl2, Nat.zero_add, hmid2]
  simp [bufBytes, sbBytes, List.map_map]
  rfl

/-- Witness for C2: 17 bytes (one past the growth threshold 16) with an
embedded zero byte. -/
theorem file_round_trip_witness :
    (({ openOk := true, writeCount := 17 } : WriteFileEnv).openOk = true ∧
      (DynArray.mk 17 32 ([some 1, some 0, some 2, some 3, some 4, some 5, some 6,
          some 7, some 8, some 9, some 10, some 11, some 12, some 13, some 14,
          some 15, some 16] ++ List.replicate 15 none) : DawnStringBuilder).length
        ≤ ({ openOk := true, writeCount := 17 } : WriteFileEnv).writeCount ∧
      (DynArray.mk 17 32 ([some 1, some 0, some 2, some 3, some 4, some 5, some 6,
          some 7, some 8, some 9, some 10, some 11, some 12, some 13, some 14,
          some 15, some 16] ++ List.replicate 15 none) : DawnStringBuilder).length
        ≤ (DynArray.mk 17 32 ([some 1, some 0, some 2, some 3, some 4, some 5, some 6,
          some 7, some 8, some 9, some 10, some 11, some 12, some 13, some 14,
          some 15, some 16] ++ List.replicate 15 none) : DawnStringBuilder).items.length ∧
      (∀ o ∈ (DynArray.mk 17 32 ([some 1, some 0, some 2, some 3, some 4, some 5, some 6,
          some 7, some 8, some 9, some 10, some 11, some 12, some 13, some 14,
          some 15, some 16] ++ List.replicate 15 none) : DawnStringBuilder).items.take
          (DynArray.mk 17 32 ([some 1, some 0, some 2, some 3, some 4, some 5, some 6,
          some 7, some 8, some 9, some 10, some 11, some 12, some 13, some 14,
          some 15, some 16] ++ List.replicate 15 none) : DawnStringBuilder).length,
        o.isSome)) ∧
    ((dawn_write_entire_file { openOk := true, writeCount := 17 } (some "f")
        (some (DynArray.mk 17 32 ([some 1, some 0, some 2, some 3, some 4, some 5, some 6,
          some 7, some 8, some 9, some 10, some 11, some 12, some 13, some 14,
          some 15, some 16] ++ List.replicate 15 none)))).result = true ∧
      ∃ file, (dawn_write_entire_file { openOk := true, writeCount := 17 } (some "f")
          (some (DynArray.mk 17 32 ([some 1, some 0, some 2, some 3, some 4, some 5, some 6,
            some 7, some 8, some 9, some 10, some 11, some 12, some 13, some 14,
            some 15, some 16] ++ List.replicate 15 none)))).fileContents = some file ∧
        (dawn_read_entire_file (readEnvOf file) (some "f") (some emptySB)).result = true ∧
        ∃ sb2, (dawn_read_entire_file (readEnvOf file) (some "f")
              (some emptySB)).content = some sb2 ∧
          sbBytes sb2 = sbBytes (DynArray.mk 17 32 ([some 1, some 0, some 2, some 3,
            some 4, some 5, some 6, some 7, some 8, some 9, some 10, some 11, some 12,
            some 13, some 14, some 15, some 16] ++ List.replicate 15 none))) :=
  ⟨⟨rfl, by decide, by decide, by decide⟩,
    file_round_trip "f"
      (DynArray.mk 17 32 ([some 1, some 0, some 2, some 3, some 4, some 5, some 6,
        some 7, some 8, some 9, some 10, some 11, some 12, some 13, some 14,
        some 15, some 16] ++ List.replicate 15 none))
      { openOk := true, writeCount := 17 } rfl (by decide) (by decide) (by decide)⟩
